import Mathlib

/-!
Shallow embedding of the fitness workout tracker API (Go) for checking its
natural-language specification.

Modelling conventions:
- Go `int` is `Int`; Go `float32` is `Rat` (no float arithmetic occurs in the
  verified code paths: weights are only compared with 0 and copied).
- `time.Time` values are opaque instants modelled as `Int`; the SQL
  CURRENT_TIMESTAMP is an explicit `now : Int` argument to the operations
  that write timestamps.
- `sql.NullString` and Go pointer-optional fields are `Option`.
- The database is an explicit record of table rows; SQL statements become
  list operations (WHERE id = $1 lookups are `List.find?`, DELETE is
  `List.filter`, UPDATE ... RETURNING maps the matching rows).  SERIAL keys
  are next-id counters.  Transactions that roll back on error return the
  original state in the error case.
- Go errors are the `Err` inductive; fmt.Errorf wrapping with %w preserves
  the wrapped kind for errors.Is / errors.As, so wrapping is the identity
  on the error kind.
- The Go repository and service packages each declare identical string enums
  WPStatus and WeightUnit, converted by string casts; the casts are identity
  on the underlying string, so one Lean enum stands for both.
-/

deriving instance DecidableEq for Except

/-- WPStatus mirrors the pending / completed / missed enum of
repository.WPStatus and service.WPStatus. -/
inductive WPStatus where
  | pending
  | completed
  | missed
deriving DecidableEq, Repr

/-- WeightUnit mirrors the kg / lbs / other enum of repository.WeightUnit
and service.WeightUnit. -/
inductive WeightUnit where
  | kg
  | lbs
  | other
deriving DecidableEq, Repr

/-- ValidationField mirrors apperrors.ValidationField. -/
inductive ValidationField where
  | invalidEmail
  | invalidName
  | invalidPassword
  | invalidId
  | invalidDate
  | invalidSetting
  | invalidInput
deriving DecidableEq, Repr

/-- Err mirrors the apperrors error taxonomy: the sentinel errors plus
apperrors.ValidationError with its field and message. -/
inductive Err where
  | notFound
  | alreadyExists
  | invalidInput
  | internal
  | unauthorized
  | forbidden
  | foreignKeyViolation
  | validation (field : ValidationField) (msg : String)
deriving DecidableEq, Repr

/-- fieldCode mirrors the Go cast apperrors.ErrorCode(valErr.Field) used by
helper.SendErrorResponse. -/
def fieldCode : ValidationField → String
  | .invalidEmail => "INVALID_EMAIL"
  | .invalidName => "INVALID_NAME"
  | .invalidPassword => "INVALID_PASSWORD"
  | .invalidId => "INVALID_ID"
  | .invalidDate => "INVALID_DATE"
  | .invalidSetting => "INVALID_SETTING"
  | .invalidInput => "INVALID_INPUT"

/-- sendErrorResponse mirrors helper.SendErrorResponse: it maps an error to
the HTTP status code and machine-readable error code of the response
envelope.  Validation errors are checked first (errors.As), then the
sentinel errors (errors.Is); everything else is a 500 INTERNAL_ERROR. -/
def sendErrorResponse : Err → Nat × String
  | .validation f _ => (400, fieldCode f)
  | .notFound => (404, "NOT_FOUND")
  | .alreadyExists => (409, "ALREADY_EXISTS")
  | .unauthorized => (401, "UNAUTHORIZED")
  | .forbidden => (403, "FORBIDDEN")
  | .invalidInput => (400, "BAD_REQUEST")
  | .internal => (500, "INTERNAL_ERROR")
  | .foreignKeyViolation => (500, "INTERNAL_ERROR")

/-- WorkoutPlanRow is a row of the workout_plans table
(repository.WorkoutPlan): id, user_id, status, scheduled_date, nullable
comment, created_at, updated_at. -/
structure WorkoutPlanRow where
  id : Int
  userId : Int
  status : WPStatus
  scheduledDate : Int
  comment : Option String
  createdAt : Int
  updatedAt : Int
deriving DecidableEq, Repr

/-- ExercisePlanRow is a row of the exercise_plans table
(repository.ExercisePlan): id, exercise_id, workout_plan_id, sets,
repetitions, weights, weight_unit. -/
structure ExercisePlanRow where
  id : Int
  exerciseId : Int
  workoutPlanId : Int
  sets : Int
  repetitions : Int
  weights : Rat
  weightUnit : WeightUnit
deriving DecidableEq, Repr

/-- UserRow is a row of the users table (repository.User). -/
structure UserRow where
  id : Int
  name : String
  email : String
  passwordHash : String
  createdAt : Int
  updatedAt : Int
deriving DecidableEq, Repr

/-- DB is the persistent state: the three tables the verified operations
touch, plus SERIAL next-id counters. -/
structure DB where
  users : List UserRow
  workoutPlans : List WorkoutPlanRow
  exercisePlans : List ExercisePlanRow
  nextUserId : Int
  nextWorkoutPlanId : Int
  nextExercisePlanId : Int
deriving DecidableEq, Repr

/-- coalesce models the SQL COALESCE of a bindable parameter (NULL when the
Go pointer is nil) against the current column value. -/
def coalesce {α : Type} (param : Option α) (current : α) : α :=
  match param with
  | some v => v
  | none => current

/-- coalesceNull models SQL COALESCE when the column itself is nullable
(the comment column): a NULL parameter keeps the current, possibly NULL,
value. -/
def coalesceNull (param : Option String) (current : Option String) : Option String :=
  match param with
  | some v => some v
  | none => current

namespace repository

/-- CreateWP mirrors repository.CreateWP: user id, scheduled date, and an
optional comment pointer. -/
structure CreateWP where
  userId : Int
  scheduledDate : Int
  comment : Option String
deriving DecidableEq, Repr

/-- UpdateWP mirrors repository.UpdateWP: the status field is a plain
(non-pointer) WPStatus, while scheduled date and comment are optional
pointers. -/
structure UpdateWP where
  id : Int
  status : WPStatus
  scheduledDate : Option Int
  comment : Option String
deriving DecidableEq, Repr

/-- CreateEP mirrors repository.CreateEP. -/
structure CreateEP where
  exerciseId : Int
  sets : Int
  repetitions : Int
  weights : Rat
  weightUnit : WeightUnit
deriving DecidableEq, Repr

/-- UpdateEP mirrors repository.UpdateEP: every updatable column is an
optional pointer, bound to NULL when absent so that COALESCE keeps the
stored value. -/
structure UpdateEP where
  id : Int
  sets : Option Int
  repetitions : Option Int
  weights : Option Rat
  weightUnit : Option WeightUnit
deriving DecidableEq, Repr

/-- UserCreate mirrors repository.UserCreate. -/
structure UserCreate where
  name : String
  email : String
  passwordHash : String
deriving DecidableEq, Repr

/-- CreateWorkout mirrors postgresWorkoutRepository.CreateWorkout: the
status is forced to pending, a non-nil empty-string comment pointer is
replaced by nil before binding, and the INSERT ... RETURNING row is
returned.  The users foreign key is enforced by the database and not
modelled; it is irrelevant to the verified claims. -/
def CreateWorkout (db : DB) (now : Int) (data : CreateWP) :
    Except Err WorkoutPlanRow × DB :=
  let comment := if data.comment == some "" then none else data.comment
  let row : WorkoutPlanRow :=
    ⟨db.nextWorkoutPlanId, data.userId, .pending, data.scheduledDate, comment, now, now⟩
  (.ok row,
   { db with workoutPlans := db.workoutPlans ++ [row],
             nextWorkoutPlanId := db.nextWorkoutPlanId + 1 })

/-- GetWorkoutById mirrors postgresWorkoutRepository.GetWorkoutById:
SELECT ... WHERE id = $1, with sql.ErrNoRows mapped to ErrNotFound. -/
def GetWorkoutById (db : DB) (id : Int) : Except Err WorkoutPlanRow :=
  match db.workoutPlans.find? (fun wp => wp.id == id) with
  | some wp => .ok wp
  | none => .error .notFound

/-- UpdateWorkout mirrors postgresWorkoutRepository.UpdateWorkout: inside
one transaction it first resolves the id (ErrNotFound when absent), then
runs the single UPDATE with COALESCE per column, stamping updated_at with
CURRENT_TIMESTAMP.  The status parameter is bound from a non-pointer Go
value and is therefore never NULL. -/
def UpdateWorkout (db : DB) (now : Int) (data : UpdateWP) :
    Except Err WorkoutPlanRow × DB :=
  match db.workoutPlans.find? (fun wp => wp.id == data.id) with
  | none => (.error .notFound, db)
  | some wp =>
    let updated : WorkoutPlanRow :=
      { wp with
        status := coalesce (some data.status) wp.status,
        scheduledDate := coalesce data.scheduledDate wp.scheduledDate,
        comment := coalesceNull data.comment wp.comment,
        updatedAt := now }
    (.ok updated,
     { db with workoutPlans :=
         db.workoutPlans.map (fun w => if w.id == data.id then updated else w) })

/-- DeleteWorkoutById mirrors postgresWorkoutRepository.DeleteWorkoutById:
inside one transaction it deletes the exercise plans referencing the plan,
then the plan row; when no plan row was affected the transaction fails
with ErrNotFound and rolls back, leaving the state unchanged. -/
def DeleteWorkoutById (db : DB) (id : Int) : Except Err Unit × DB :=
  let affected := (db.workoutPlans.filter (fun wp => wp.id == id)).length
  if affected == 0 then
    (.error .notFound, db)
  else
    (.ok (),
     { db with
         exercisePlans := db.exercisePlans.filter (fun ep => ep.workoutPlanId != id),
         workoutPlans := db.workoutPlans.filter (fun wp => wp.id != id) })

/-- ListWorkoutsByStatus mirrors
postgresWorkoutRepository.ListWorkoutsByStatus: SELECT ... WHERE user_id
AND status, ORDER BY scheduled_date ASC or DESC. -/
def ListWorkoutsByStatus (db : DB) (userId : Int) (status : WPStatus) (asc : Bool) :
    List WorkoutPlanRow :=
  let filtered := db.workoutPlans.filter
    (fun wp => wp.userId == userId && wp.status == status)
  if asc then
    filtered.mergeSort (fun a b => decide (a.scheduledDate ≤ b.scheduledDate))
  else
    filtered.mergeSort (fun a b => decide (b.scheduledDate ≤ a.scheduledDate))

/-- ListUserWorkouts mirrors postgresWorkoutRepository.ListUserWorkouts:
SELECT ... WHERE user_id ORDER BY scheduled_date ASC. -/
def ListUserWorkouts (db : DB) (userId : Int) : List WorkoutPlanRow :=
  (db.workoutPlans.filter (fun wp => wp.userId == userId)).mergeSort
    (fun a b => decide (a.scheduledDate ≤ b.scheduledDate))

/-- CreateExercisePlan mirrors postgresEPRepository.CreateExercisePlan:
inside one transaction it verifies the workout plan exists (failing with
ErrForeignKeyViolation), then inserts the row. -/
def CreateExercisePlan (db : DB) (data : CreateEP) (workoutPlanId : Int) :
    Except Err ExercisePlanRow × DB :=
  match db.workoutPlans.find? (fun wp => wp.id == workoutPlanId) with
  | none => (.error .foreignKeyViolation, db)
  | some _ =>
    let row : ExercisePlanRow :=
      ⟨db.nextExercisePlanId, data.exerciseId, workoutPlanId,
       data.sets, data.repetitions, data.weights, data.weightUnit⟩
    (.ok row,
     { db with exercisePlans := db.exercisePlans ++ [row],
               nextExercisePlanId := db.nextExercisePlanId + 1 })

/-- UpdateExercisePlan mirrors postgresEPRepository.UpdateExercisePlan:
inside one transaction it resolves the id (ErrNotFound when absent), then
runs the single UPDATE with COALESCE per column, so a NULL parameter keeps
the stored value. -/
def UpdateExercisePlan (db : DB) (data : UpdateEP) :
    Except Err ExercisePlanRow × DB :=
  match db.exercisePlans.find? (fun ep => ep.id == data.id) with
  | none => (.error .notFound, db)
  | some ep =>
    let updated : ExercisePlanRow :=
      { ep with
        sets := coalesce data.sets ep.sets,
        repetitions := coalesce data.repetitions ep.repetitions,
        weights := coalesce data.weights ep.weights,
        weightUnit := coalesce data.weightUnit ep.weightUnit }
    (.ok updated,
     { db with exercisePlans :=
         db.exercisePlans.map (fun e => if e.id == data.id then updated else e) })

/-- ListExercisePlans mirrors postgresEPRepository.ListExercisePlans:
SELECT ... WHERE workout_plan_id = $1. -/
def ListExercisePlans (db : DB) (workoutId : Int) : List ExercisePlanRow :=
  db.exercisePlans.filter (fun ep => ep.workoutPlanId == workoutId)

/-- ExistUser mirrors postgresUserRepository.ExistUser: SELECT id WHERE
email, true when a row exists. -/
def ExistUser (db : DB) (email : String) : Bool :=
  db.users.any (fun u => u.email == email)

/-- CreateUser mirrors postgresUserRepository.CreateUser: the INSERT hits
the UNIQUE email constraint (SQLSTATE 23505) when the email is taken,
which the code maps to ErrAlreadyExists; otherwise the new row is
returned. -/
def CreateUser (db : DB) (now : Int) (data : UserCreate) :
    Except Err UserRow × DB :=
  if db.users.any (fun u => u.email == data.email) then
    (.error .alreadyExists, db)
  else
    let row : UserRow :=
      ⟨db.nextUserId, data.name, data.email, data.passwordHash, now, now⟩
    (.ok row,
     { db with users := db.users ++ [row], nextUserId := db.nextUserId + 1 })

/-- GetUserByEmail mirrors postgresUserRepository.GetUserByEmail. -/
def GetUserByEmail (db : DB) (email : String) : Except Err UserRow :=
  match db.users.find? (fun u => u.email == email) with
  | some u => .ok u
  | none => .error .notFound

end repository

namespace service

/-- ExercisePlanCreate mirrors service.ExercisePlanCreate. -/
structure ExercisePlanCreate where
  exerciseId : Int
  sets : Int
  repetitions : Int
  weights : Rat
  weightUnit : WeightUnit
deriving DecidableEq, Repr

/-- Validate mirrors service.ExercisePlanCreate.Validate: sets in 1..999,
repetitions and weights non-negative, weight unit one of kg/lbs/other (the
switch default branch is unreachable once the unit is the enum). -/
def ExercisePlanCreate.Validate (data : ExercisePlanCreate) : Except Err Unit :=
  if data.sets ≤ 0 || data.sets > 999 then
    .error (.validation .invalidSetting "sets can not be zero or too large")
  else if data.repetitions < 0 then
    .error (.validation .invalidSetting "repetitions can not be negative")
  else if data.weights < 0 then
    .error (.validation .invalidSetting "weights can not be negative")
  else
    match data.weightUnit with
    | .kg => .ok ()
    | .lbs => .ok ()
    | .other => .ok ()

/-- ExercisePlanUpdate mirrors service.ExercisePlanUpdate: note that every
field, including sets / repetitions / weights / weightUnit, is a plain
non-pointer value at the service layer. -/
structure ExercisePlanUpdate where
  id : Int
  sets : Int
  repetitions : Int
  weights : Rat
  weightUnit : WeightUnit
deriving DecidableEq, Repr

/-- Validate mirrors service.ExercisePlanUpdate.Validate, identical to the
create-side validation. -/
def ExercisePlanUpdate.Validate (data : ExercisePlanUpdate) : Except Err Unit :=
  if data.sets ≤ 0 || data.sets > 999 then
    .error (.validation .invalidSetting "sets can not be zero or too large")
  else if data.repetitions < 0 then
    .error (.validation .invalidSetting "repetitions can not be negative")
  else if data.weights < 0 then
    .error (.validation .invalidSetting "weights can not be negative")
  else
    match data.weightUnit with
    | .kg => .ok ()
    | .lbs => .ok ()
    | .other => .ok ()

/-- WorkoutPlan mirrors service.WorkoutPlan; the exercise plans carried by
the DTO are the repository rows (service.toServiceEP is a field-by-field
copy). -/
structure WorkoutPlan where
  id : Int
  userId : Int
  status : WPStatus
  scheduledDate : Int
  comment : Option String
  createdAt : Int
  updatedAt : Int
  exercisePlans : List ExercisePlanRow
deriving DecidableEq, Repr

/-- WorkoutPlanCreate mirrors service.WorkoutPlanCreate. -/
structure WorkoutPlanCreate where
  userId : Int
  scheduledDate : Option Int
  exercisePlans : List ExercisePlanCreate
deriving DecidableEq, Repr

/-- validateEPList folds ExercisePlanCreate.Validate over the list,
stopping at the first error, as the Go range loops do. -/
def validateEPList : List ExercisePlanCreate → Except Err Unit
  | [] => .ok ()
  | ep :: rest =>
    match ep.Validate with
    | .error e => .error e
    | .ok () => validateEPList rest

/-- Validate mirrors service.WorkoutPlanCreate.Validate: positive user id,
a scheduled date that is set, and valid exercise plans. -/
def WorkoutPlanCreate.Validate (data : WorkoutPlanCreate) : Except Err Unit :=
  if data.userId ≤ 0 then
    .error (.validation .invalidId "not a valid user id")
  else
    match data.scheduledDate with
    | none => .error (.validation .invalidDate "not valid scheduled date, date is not set")
    | some _ => validateEPList data.exercisePlans

/-- toServiceWP mirrors service.toServiceWP: the repository row plus its
exercise plans become the service DTO, with the NullString comment read as
an optional string. -/
def toServiceWP (wp : WorkoutPlanRow) (eps : List ExercisePlanRow) : WorkoutPlan :=
  ⟨wp.id, wp.userId, wp.status, wp.scheduledDate, wp.comment,
   wp.createdAt, wp.updatedAt, eps⟩

/-- createEPsLoop is the loop body of service.WorkoutService.CreateWorkout
that creates each exercise plan in order, stopping at the first repository
error (earlier inserts stay committed: each repository call runs its own
transaction). -/
def createEPsLoop (workoutId : Int) :
    List ExercisePlanCreate → DB → List ExercisePlanRow →
    Except Err (List ExercisePlanRow) × DB
  | [], db, acc => (.ok acc, db)
  | ep :: rest, db, acc =>
    match repository.CreateExercisePlan db
        ⟨ep.exerciseId, ep.sets, ep.repetitions, ep.weights, ep.weightUnit⟩
        workoutId with
    | (.error e, db1) => (.error e, db1)
    | (.ok row, db1) => createEPsLoop workoutId rest db1 (acc ++ [row])

/-- CreateWorkout mirrors service.WorkoutService.CreateWorkout: validate
(the exercise plans are validated a second time by an explicit loop, with
the same outcome), then create the workout plan with a nil comment, then
create each exercise plan.  The unreachable internal branch models the
dereference of the scheduled date, which Validate has established to be
non-nil. -/
def CreateWorkout (db : DB) (now : Int) (data : WorkoutPlanCreate) :
    Except Err WorkoutPlan × DB :=
  match data.Validate with
  | .error e => (.error e, db)
  | .ok () =>
    match validateEPList data.exercisePlans with
    | .error e => (.error e, db)
    | .ok () =>
      match data.scheduledDate with
      | none => (.error .internal, db)
      | some sd =>
        match repository.CreateWorkout db now ⟨data.userId, sd, none⟩ with
        | (.error e, db1) => (.error e, db1)
        | (.ok workout, db1) =>
          match createEPsLoop workout.id data.exercisePlans db1 [] with
          | (.error e, db2) => (.error e, db2)
          | (.ok rows, db2) => (.ok (toServiceWP workout rows), db2)

/-- GetWorkoutById mirrors service.WorkoutService.GetWorkoutById: fetch the
plan, fetch its exercise plans, convert. -/
def GetWorkoutById (db : DB) (id : Int) : Except Err WorkoutPlan :=
  match repository.GetWorkoutById db id with
  | .error e => .error e
  | .ok workoutPlan =>
    .ok (toServiceWP workoutPlan (repository.ListExercisePlans db workoutPlan.id))

/-- CompleteWorkout mirrors service.WorkoutService.CompleteWorkout: an
UpdateWP with status COMPLETED, no scheduled date, and the given comment
pointer. -/
def CompleteWorkout (db : DB) (now : Int) (id : Int) (comment : Option String) :
    Except Err Unit × DB :=
  match repository.UpdateWorkout db now ⟨id, .completed, none, comment⟩ with
  | (.error e, db1) => (.error e, db1)
  | (.ok _, db1) => (.ok (), db1)

/-- ScheduleWorkout mirrors service.WorkoutService.ScheduleWorkout: an
UpdateWP with status PENDING and the given scheduled date pointer, then a
fetch of the exercise plans for the response DTO. -/
def ScheduleWorkout (db : DB) (now : Int) (id : Int) (scheduledDate : Option Int) :
    Except Err WorkoutPlan × DB :=
  match repository.UpdateWorkout db now ⟨id, .pending, scheduledDate, none⟩ with
  | (.error e, db1) => (.error e, db1)
  | (.ok workout, db1) =>
    (.ok (toServiceWP workout (repository.ListExercisePlans db1 workout.id)), db1)

/-- updateEPsLoop is the loop body of
service.WorkoutService.UpdateExercisePlans: validate each update, then call
the repository with every field passed as a non-nil pointer (the service
layer takes the address of each plain field), stopping at the first error;
earlier updates stay committed since each repository call runs its own
transaction. -/
def updateEPsLoop :
    List ExercisePlanUpdate → DB → List ExercisePlanRow →
    Except Err (List ExercisePlanRow) × DB
  | [], db, acc => (.ok acc, db)
  | ep :: rest, db, acc =>
    match ep.Validate with
    | .error e => (.error e, db)
    | .ok () =>
      match repository.UpdateExercisePlan db
          ⟨ep.id, some ep.sets, some ep.repetitions, some ep.weights, some ep.weightUnit⟩ with
      | (.error e, db1) => (.error e, db1)
      | (.ok row, db1) => updateEPsLoop rest db1 (acc ++ [row])

/-- UpdateExercisePlans mirrors service.WorkoutService.UpdateExercisePlans:
fetch the workout plan, then update each exercise plan in order. -/
def UpdateExercisePlans (db : DB) (workoutId : Int)
    (epsUpdate : List ExercisePlanUpdate) : Except Err WorkoutPlan × DB :=
  match repository.GetWorkoutById db workoutId with
  | .error e => (.error e, db)
  | .ok workoutPlan =>
    match updateEPsLoop epsUpdate db [] with
    | (.error e, db1) => (.error e, db1)
    | (.ok rows, db1) => (.ok (toServiceWP workoutPlan rows), db1)

/-- DeleteWorkoutById mirrors service.WorkoutService.DeleteWorkoutById. -/
def DeleteWorkoutById (db : DB) (id : Int) : Except Err Unit × DB :=
  repository.DeleteWorkoutById db id

end service

/-- UserInfo mirrors helper.UserInfo, the request-scoped identity injected
by the middleware. -/
structure UserInfo where
  id : Int
  email : String
  name : String
deriving DecidableEq, Repr

namespace userservice

/-- UserSignup mirrors service.UserSignup. -/
structure UserSignup where
  name : String
  email : String
  password : String
deriving DecidableEq, Repr

/-- isLocalChar accepts the characters of the local part of the signup
email regular expression. -/
def isLocalChar (c : Char) : Bool :=
  c.isLower || c.isDigit || c == '.' || c == '_' || c == '%' || c == '+' || c == '-'

/-- isDomainChar accepts the characters of the domain head of the signup
email regular expression. -/
def isDomainChar (c : Char) : Bool :=
  c.isLower || c.isDigit || c == '.' || c == '-'

/-- splitOnChar splits a character list at every occurrence of the
separator, keeping empty segments, exactly as the string split used by the
email check does. -/
def splitOnChar (sep : Char) : List Char → List (List Char)
  | [] => [[]]
  | c :: rest =>
    match splitOnChar sep rest with
    | [] => if c == sep then [[], [c]] else [[c]]
    | h :: t => if c == sep then [] :: h :: t else (c :: h) :: t

/-- emailFormatOk decides the anchored signup email regular expression:
one local part over its character class, an at-sign, a non-empty domain
head over its character class, a dot, and a top-level domain of two to
eight lowercase letters.  Splitting the domain at its last dot is
equivalent to the greedy match, because the top-level-domain class
excludes dots. -/
def emailFormatOk (s : String) : Bool :=
  match splitOnChar '@' s.data with
  | [localPart, domainPart] =>
    localPart.length ≥ 1 && localPart.all isLocalChar &&
    (match (splitOnChar '.' domainPart).reverse with
     | tld :: restRev =>
       let head := List.intercalate ['.'] restRev.reverse
       !restRev.isEmpty && head.length ≥ 1 && head.all isDomainChar &&
       tld.length ≥ 2 && tld.length ≤ 8 && tld.all Char.isLower
     | [] => false)
  | _ => false

/-- Validate mirrors service.UserSignup.Validate: name length 1..100, the
email format check, password length at least 8. -/
def UserSignup.Validate (data : UserSignup) : Except Err Unit :=
  if data.name.length < 1 || data.name.length > 100 then
    .error (.validation .invalidName "Set the name length between 1 and 100")
  else if !emailFormatOk data.email then
    .error (.validation .invalidEmail "The email cannot match the format")
  else if data.password.length < 8 then
    .error (.validation .invalidPassword "The password must be at least 8 characters long")
  else
    .ok ()

/-- User mirrors service.User, the signup/login DTO without the password
hash. -/
structure User where
  id : Int
  name : String
  email : String
  createdAt : Int
  updatedAt : Int
deriving DecidableEq, Repr

/-- SignupUser mirrors service.UserService.SignupUser: validate, check
registration status with ExistUser, fail with the INVALID_EMAIL validation
error when the email is taken, otherwise hash the password (the bcrypt
hasher is a parameter) and create the user. -/
def SignupUser (hash : String → String) (db : DB) (now : Int)
    (input : UserSignup) : Except Err User × DB :=
  match input.Validate with
  | .error e => (.error e, db)
  | .ok () =>
    if repository.ExistUser db input.email then
      (.error (.validation .invalidEmail "email have already registered"), db)
    else
      match repository.CreateUser db now ⟨input.name, input.email, hash input.password⟩ with
      | (.error e, db1) => (.error e, db1)
      | (.ok u, db1) => (.ok ⟨u.id, u.name, u.email, u.createdAt, u.updatedAt⟩, db1)

end userservice

namespace report

/-- ProgressStatus mirrors service.ProgressStatus. -/
structure ProgressStatus where
  completedWorkouts : Nat
  totalWorkouts : Nat
deriving DecidableEq, Repr

/-- Progress mirrors service.ReportService.Progress: the completed count is
the length of ListWorkoutsByStatus with the COMPLETED filter, the total is
the length of ListUserWorkouts. -/
def Progress (db : DB) (userId : Int) : ProgressStatus :=
  ⟨(repository.ListWorkoutsByStatus db userId .completed true).length,
   (repository.ListUserWorkouts db userId).length⟩

end report

namespace middleware

/-- Claims mirrors auth.Claims: the custom payload (with its optional id
pointer) plus the registered JWT claims that the middleware reads. -/
structure Claims where
  payloadId : Option Int
  payloadName : String
  payloadEmail : String
  jti : String
  expiresAt : Int
deriving DecidableEq, Repr

/-- MWResult is the observable outcome of the middleware: an error
response, a nil-pointer dereference crash, or a call of the wrapped
handler with the injected context values. -/
inductive MWResult where
  | respond (status : Nat) (code : String)
  | panicNilDeref
  | callNext (user : UserInfo) (jti : String) (expiresAt : Int)
deriving DecidableEq, Repr

/-- JWTAuthMiddleware mirrors middleware.JWTAuthMiddleware.  A missing or
malformed Authorization header and a failed ParseToken all answer
unauthorized, collapsed here into the none case of the parse result; some
claims is a token whose signature and expiry passed validation.  A
non-empty JTI is looked up in the blacklist (the cache read is modelled as
error-free); a blacklisted or empty JTI answers unauthorized.  Context
injection dereferences the payload id pointer. -/
def JWTAuthMiddleware (parsed : Option Claims) (blacklist : List String) : MWResult :=
  match parsed with
  | none => .respond 401 "UNAUTHORIZED"
  | some claims =>
    if claims.jti != "" then
      if blacklist.contains claims.jti then
        .respond 401 "UNAUTHORIZED"
      else
        match claims.payloadId with
        | none => .panicNilDeref
        | some pid =>
          .callNext ⟨pid, claims.payloadEmail, claims.payloadName⟩ claims.jti claims.expiresAt
    else
      .respond 401 "UNAUTHORIZED"

end middleware

namespace handler

/-- HResp is the observable outcome of a handler: an error response with
status and code, a success response with its status, or a nil-pointer
dereference crash. -/
inductive HResp where
  | err (status : Nat) (code : String)
  | ok (status : Nat)
  | panicNilDeref
deriving DecidableEq, Repr

/-- errResp sends an error through helper.SendErrorResponse. -/
def errResp (e : Err) : HResp :=
  .err (sendErrorResponse e).1 (sendErrorResponse e).2

/-- APICreateExercisePlan mirrors the generated api.CreateExercisePlan:
every property of the OpenAPI schema is optional, so every field of the
generated struct is a pointer. -/
structure APICreateExercisePlan where
  exerciseId : Option Int
  sets : Option Int
  repetitions : Option Int
  weights : Option Rat
  weightUnit : Option WeightUnit
deriving DecidableEq, Repr

/-- APIUpdateExercisePlan mirrors the generated api.UpdateExercisePlan:
every property of the OpenAPI schema is optional, so every field of the
generated struct is a pointer. -/
structure APIUpdateExercisePlan where
  id : Option Int
  sets : Option Int
  repetitions : Option Int
  weights : Option Rat
  weightUnit : Option WeightUnit
deriving DecidableEq, Repr

/-- toServiceCreateEP mirrors handler.toServiceCreateEP, which
unconditionally dereferences every pointer field of the API struct; none
models the nil-pointer dereference panic when a field is absent from the
request body. -/
def toServiceCreateEP (apiEP : APICreateExercisePlan) :
    Option service.ExercisePlanCreate :=
  match apiEP.exerciseId, apiEP.repetitions, apiEP.sets, apiEP.weights, apiEP.weightUnit with
  | some exerciseId, some repetitions, some sets, some weights, some weightUnit =>
    some ⟨exerciseId, sets, repetitions, weights, weightUnit⟩
  | _, _, _, _, _ => none

/-- toServiceUpdateEP mirrors handler.toServiceUpdateEP, which
unconditionally dereferences every pointer field of the API struct; none
models the nil-pointer dereference panic when a field is absent from the
request body. -/
def toServiceUpdateEP (apiEP : APIUpdateExercisePlan) :
    Option service.ExercisePlanUpdate :=
  match apiEP.id, apiEP.sets, apiEP.repetitions, apiEP.weights, apiEP.weightUnit with
  | some id, some sets, some repetitions, some weights, some weightUnit =>
    some ⟨id, sets, repetitions, weights, weightUnit⟩
  | _, _, _, _, _ => none

/-- digitsToNatAux folds decimal digits into a number, failing at the
first non-digit character. -/
def digitsToNatAux : List Char → Nat → Option Nat
  | [], acc => some acc
  | c :: rest, acc =>
    if c.isDigit then digitsToNatAux rest (acc * 10 + (c.toNat - '0'.toNat))
    else none

/-- atoi models strconv.Atoi: an optional sign followed by at least one
decimal digit; anything else is an error. -/
def atoi (s : String) : Option Int :=
  match s.data with
  | [] => none
  | '-' :: rest =>
    match rest with
    | [] => none
    | _ => (digitsToNatAux rest 0).map (fun n => -(n : Int))
  | '+' :: rest =>
    match rest with
    | [] => none
    | _ => (digitsToNatAux rest 0).map (fun n => (n : Int))
  | l => (digitsToNatAux l 0).map (fun n => (n : Int))

/-- doubleAuth mirrors handler.doubleAuth: reject an unset or non-numeric
path id, reject a missing context identity as unauthorized, answer
not-found when the workout plan cannot be fetched, forbidden when its
owner is not the caller, and return the plan id otherwise. -/
def doubleAuth (db : DB) (pathValue : String) (userInfo : Option UserInfo) :
    Except Err Int :=
  if pathValue == "" then
    .error (.validation .invalidInput "workout id not set in path")
  else
    match atoi pathValue with
    | none => .error (.validation .invalidId "workout id not valid")
    | some wpId =>
      match userInfo with
      | none => .error .unauthorized
      | some user =>
        match service.GetWorkoutById db wpId with
        | .error _ => .error .notFound
        | .ok exsitingWP =>
          if exsitingWP.userId != user.id then .error .forbidden
          else .ok exsitingWP.id

/-- GetWorkoutPlanById mirrors handler.GetWorkoutPlanById: doubleAuth, then
a second service fetch for the response body. -/
def GetWorkoutPlanById (db : DB) (pathValue : String)
    (userInfo : Option UserInfo) : HResp × DB :=
  match doubleAuth db pathValue userInfo with
  | .error e => (errResp e, db)
  | .ok wpId =>
    match service.GetWorkoutById db wpId with
    | .error _ => (errResp .notFound, db)
    | .ok _ => (.ok 200, db)

/-- UpdateEPsBody mirrors the generated
api.UpdateExercisePlansInWorkoutPlanJSONBody, whose exercisePlans field is
an optional pointer to a slice. -/
structure UpdateEPsBody where
  exercisePlans : Option (List APIUpdateExercisePlan)
deriving DecidableEq, Repr

/-- UpdateExercisePlansInWorkoutPlan mirrors
handler.UpdateExercisePlansInWorkoutPlan: doubleAuth, decode the body (none
models a decode failure), dereference the exercisePlans slice pointer,
convert each element with toServiceUpdateEP, then call the service. -/
def UpdateExercisePlansInWorkoutPlan (db : DB) (pathValue : String)
    (userInfo : Option UserInfo) (body : Option UpdateEPsBody) : HResp × DB :=
  match doubleAuth db pathValue userInfo with
  | .error e => (errResp e, db)
  | .ok wpId =>
    match body with
    | none => (errResp (.validation .invalidInput "invalid request body"), db)
    | some req =>
      match req.exercisePlans with
      | none => (.panicNilDeref, db)
      | some eps =>
        match eps.mapM toServiceUpdateEP with
        | none => (.panicNilDeref, db)
        | some serviceUpdateEPs =>
          match service.UpdateExercisePlans db wpId serviceUpdateEPs with
          | (.error e, db1) => (errResp e, db1)
          | (.ok _, db1) => (.ok 200, db1)

/-- CompleteBody mirrors the generated
api.CompleteWorkoutPlanByIdJSONRequestBody with its optional comment. -/
structure CompleteBody where
  comment : Option String
deriving DecidableEq, Repr

/-- CompleteWorkoutPlanById mirrors handler.CompleteWorkoutPlanById:
doubleAuth, decode the body, then CompleteWorkout. -/
def CompleteWorkoutPlanById (db : DB) (now : Int) (pathValue : String)
    (userInfo : Option UserInfo) (body : Option CompleteBody) : HResp × DB :=
  match doubleAuth db pathValue userInfo with
  | .error e => (errResp e, db)
  | .ok wpId =>
    match body with
    | none => (errResp (.validation .invalidInput "invalid request body"), db)
    | some req =>
      match service.CompleteWorkout db now wpId req.comment with
      | (.error e, db1) => (errResp e, db1)
      | (.ok (), db1) => (.ok 204, db1)

/-- ScheduleBody mirrors the generated api.ScheduleWorkoutPlanByIdJSONBody
with its optional scheduled date. -/
structure ScheduleBody where
  scheduledDate : Option Int
deriving DecidableEq, Repr

/-- ScheduleWorkoutPlanById mirrors handler.ScheduleWorkoutPlanById:
doubleAuth, decode the body, then ScheduleWorkout. -/
def ScheduleWorkoutPlanById (db : DB) (now : Int) (pathValue : String)
    (userInfo : Option UserInfo) (body : Option ScheduleBody) : HResp × DB :=
  match doubleAuth db pathValue userInfo with
  | .error e => (errResp e, db)
  | .ok wpId =>
    match body with
    | none => (errResp (.validation .invalidInput "invalid request body"), db)
    | some req =>
      match service.ScheduleWorkout db now wpId req.scheduledDate with
      | (.error e, db1) => (errResp e, db1)
      | (.ok _, db1) => (.ok 200, db1)

/-- DeleteWoroutPlanById mirrors handler.DeleteWoroutPlanById (the name
keeps the source spelling): doubleAuth, then DeleteWorkoutById. -/
def DeleteWoroutPlanById (db : DB) (pathValue : String)
    (userInfo : Option UserInfo) : HResp × DB :=
  match doubleAuth db pathValue userInfo with
  | .error e => (errResp e, db)
  | .ok wpId =>
    match service.DeleteWorkoutById db wpId with
    | (.error e, db1) => (errResp e, db1)
    | (.ok (), db1) => (.ok 204, db1)

/-- CreateWPBody mirrors the generated
api.CreateWorkoutPlanJSONRequestBody with its optional scheduled date and
optional exercise-plans slice pointer. -/
structure CreateWPBody where
  scheduledDate : Option Int
  exercisePlans : Option (List APICreateExercisePlan)
deriving DecidableEq, Repr

/-- CreateWorkoutPlan mirrors handler.CreateWorkoutPlan: decode the body,
read the context identity, dereference the exercisePlans slice pointer,
convert each element with toServiceCreateEP, then call the service. -/
def CreateWorkoutPlan (db : DB) (now : Int) (userInfo : Option UserInfo)
    (body : Option CreateWPBody) : HResp × DB :=
  match body with
  | none => (errResp (.validation .invalidInput "invalid request body"), db)
  | some req =>
    match userInfo with
    | none => (errResp .unauthorized, db)
    | some user =>
      match req.exercisePlans with
      | none => (.panicNilDeref, db)
      | some eps =>
        match eps.mapM toServiceCreateEP with
        | none => (.panicNilDeref, db)
        | some createEPs =>
          match service.CreateWorkout db now ⟨user.id, req.scheduledDate, createEPs⟩ with
          | (.error e, db1) => (errResp e, db1)
          | (.ok _, db1) => (.ok 201, db1)

end handler

/-- noNewMissed states that an operation taking the state from db to db1
never introduces the missed status: every missed plan of db1 was already a
missed plan of db. -/
def noNewMissed (db db1 : DB) : Prop :=
  ∀ wp1 ∈ db1.workoutPlans, wp1.status = .missed →
    ∃ wp ∈ db.workoutPlans, wp.id = wp1.id ∧ wp.status = .missed

/-- c1db is a one-plan database (plan 1 owned by user 7) used to witness
the ownership-gating theorem. -/
def c1db : DB := ⟨[], [⟨1, 7, .pending, 100, none, 0, 0⟩], [], 1, 2, 1⟩

/-- c1user is a caller who does not own plan 1 of c1db. -/
def c1user : UserInfo := ⟨9, "eve@example.com", "Eve"⟩

/-- c2db holds plan 1 owned by user 7 with one exercise plan (id 1, sets 3,
repetitions 10, weights 50 kg), the fixture for the partial-update bug. -/
def c2db : DB :=
  ⟨[], [⟨1, 7, .pending, 100, none, 0, 0⟩], [⟨1, 10, 1, 3, 10, 50, .kg⟩], 1, 2, 2⟩

/-- c2user owns plan 1 of c2db. -/
def c2user : UserInfo := ⟨7, "al@example.com", "Al"⟩

/-- c3db is a one-plan database with a stored comment and scheduled date,
used to witness the COALESCE update theorem. -/
def c3db : DB := ⟨[], [⟨1, 7, .completed, 100, some "old", 0, 0⟩], [], 1, 2, 1⟩

/-- c4db is a one-plan database with a missed plan, used to witness the
status-transition theorem. -/
def c4db : DB := ⟨[], [⟨1, 7, .missed, 100, none, 0, 0⟩], [], 1, 2, 1⟩

/-- c5db is a database with one registered user alice@example.com. -/
def c5db : DB := ⟨[⟨1, "Alice", "alice@example.com", "hash0", 0, 0⟩], [], [], 2, 1, 1⟩

/-- c5hash stands in for the bcrypt hasher in the signup fixtures; the
duplicate-email path returns before any hashing. -/
def c5hash : String → String := fun s => s

/-- c5input is a well-formed signup request reusing the registered
email. -/
def c5input : userservice.UserSignup := ⟨"Alice", "alice@example.com", "password123"⟩

/-- c6db holds plans 1 and 2 with exercise plans referencing both, the
fixture for the cascade-delete theorem. -/
def c6db : DB :=
  ⟨[], [⟨1, 7, .pending, 100, none, 0, 0⟩, ⟨2, 7, .pending, 200, none, 0, 0⟩],
   [⟨1, 10, 1, 3, 10, 50, .kg⟩, ⟨2, 11, 1, 4, 8, 60, .lbs⟩, ⟨3, 10, 2, 5, 5, 70, .kg⟩],
   1, 3, 4⟩

/-- C7: for every user, the progress report returns exactly the number of
that user's stored workout plans with status completed and the total
number of that user's stored workout plans; with no plans both counts are
zero. -/
theorem c7_progress_exact_counts (db : DB) (userId : Int) :
    report.Progress db userId =
      ⟨(db.workoutPlans.filter
          (fun wp => wp.userId == userId && wp.status == WPStatus.completed)).length,
        (db.workoutPlans.filter (fun wp => wp.userId == userId)).length⟩ := by
  unfold report.Progress repository.ListWorkoutsByStatus repository.ListUserWorkouts
  simp [List.length_mergeSort]

/-- C8: a request whose token carries a blacklisted JTI is answered with an
unauthorized response even though signature and expiry validation passed,
a token with an empty JTI is likewise rejected, and in both situations the
wrapped handler is never invoked (the middleware only invokes it through
the callNext outcome, which requires a non-empty, non-blacklisted JTI). -/
theorem c8_blacklist_rejects (claims : middleware.Claims) (blacklist : List String) :
    (blacklist.contains claims.jti = true →
      middleware.JWTAuthMiddleware (some claims) blacklist =
        .respond 401 "UNAUTHORIZED") ∧
    (claims.jti = "" →
      middleware.JWTAuthMiddleware (some claims) blacklist =
        .respond 401 "UNAUTHORIZED") ∧
    (∀ user jti expiresAt,
      middleware.JWTAuthMiddleware (some claims) blacklist =
        .callNext user jti expiresAt →
      blacklist.contains claims.jti = false ∧ claims.jti ≠ "") := by
  unfold middleware.JWTAuthMiddleware
  refine ⟨?_, ?_, ?_⟩
  · intro hbl
    have hmem : claims.jti ∈ blacklist := by simpa using hbl
    by_cases hjti : claims.jti = ""
    · simp [hjti]
    · simp [hjti, hmem]
  · intro hjti
    simp [hjti]
  · intro user jti expiresAt h
    by_cases hjti : claims.jti = ""
    · simp [hjti] at h
    · by_cases hmem : claims.jti ∈ blacklist
      · simp [hjti, hmem] at h
      · exact ⟨by simpa using hmem, hjti⟩

/-- C8 witness: a concrete blacklisted token is rejected with 401. -/
theorem c8_blacklist_rejects_witness :
    middleware.JWTAuthMiddleware (some ⟨some 5, "Bob", "bob@example.com", "jtiA", 10⟩)
        ["jtiA"] = .respond 401 "UNAUTHORIZED" :=
  (c8_blacklist_rejects ⟨some 5, "Bob", "bob@example.com", "jtiA", 10⟩ ["jtiA"]).1
    (by decide)

/-- C9: every workout plan created through the repository CreateWorkout is
stored with status pending whatever the input, with a nil or empty-string
comment stored as NULL; and every plan created through the service
CreateWorkout (which always passes a nil comment) is reported with status
pending and no comment. -/
theorem c9_created_plans_pending (db : DB) (now : Int) (data : repository.CreateWP) :
    (∃ row db1,
      repository.CreateWorkout db now data = (.ok row, db1) ∧
      row.status = .pending ∧
      ((data.comment = none ∨ data.comment = some "") → row.comment = none) ∧
      row ∈ db1.workoutPlans) ∧
    (∀ sdata res db2,
      service.CreateWorkout db now sdata = (.ok res, db2) →
      res.status = .pending ∧ res.comment = none) := by
  constructor
  · refine ⟨_, _, rfl, rfl, ?_, ?_⟩
    · rintro (h | h) <;> simp [h]
    · simp
  · intro sdata res db2 h
    unfold service.CreateWorkout at h
    cases hval : sdata.Validate with
    | error e => rw [hval] at h; simp at h
    | ok u =>
      cases u
      rw [hval] at h
      cases hvl : service.validateEPList sdata.exercisePlans with
      | error e => rw [hvl] at h; simp at h
      | ok u =>
        cases u
        rw [hvl] at h
        cases hsd : sdata.scheduledDate with
        | none => rw [hsd] at h; simp at h
        | some sd =>
          rw [hsd] at h
          simp only [repository.CreateWorkout] at h
          split at h
          · simp at h
          · simp only [Prod.mk.injEq, Except.ok.injEq] at h
            obtain ⟨hres, _⟩ := h
            subst hres
            exact ⟨rfl, rfl⟩

/-- C9 witness: creating a plan with an empty-string comment in an empty
database yields a pending plan with a NULL comment. -/
theorem c9_created_plans_pending_witness :
    ∃ row db1,
      repository.CreateWorkout ⟨[], [], [], 1, 1, 1⟩ 3 ⟨7, 100, some ""⟩ =
        (.ok row, db1) ∧
      row.status = .pending ∧ row.comment = none := by
  obtain ⟨⟨row, db1, heq, hst, hcm, -⟩, -⟩ :=
    c9_created_plans_pending ⟨[], [], [], 1, 1, 1⟩ 3 ⟨7, 100, some ""⟩
  exact ⟨row, db1, heq, hst, hcm (Or.inr rfl)⟩

/-- C3: for every workout-plan update, an absent plan id fails with
not-found leaving the state unchanged; otherwise a single atomic update
replaces exactly the matching rows, where the status (which the update
record always carries, its field being non-nullable) is always
overwritten, an absent scheduled date or comment keeps the stored value, a
present one overwrites it, and id, owner and creation timestamp are
untouched while updated_at is stamped with the current time. -/
theorem c3_update_workout_field_semantics (db : DB) (now : Int)
    (data : repository.UpdateWP) :
    (db.workoutPlans.find? (fun wp => wp.id == data.id) = none →
      repository.UpdateWorkout db now data = (.error .notFound, db)) ∧
    (∀ wp, db.workoutPlans.find? (fun wp => wp.id == data.id) = some wp →
      ∃ updated,
        repository.UpdateWorkout db now data =
          (.ok updated,
            { db with workoutPlans :=
                db.workoutPlans.map (fun w => if w.id == data.id then updated else w) }) ∧
        updated.status = data.status ∧
        (data.scheduledDate = none → updated.scheduledDate = wp.scheduledDate) ∧
        (∀ d, data.scheduledDate = some d → updated.scheduledDate = d) ∧
        (data.comment = none → updated.comment = wp.comment) ∧
        (∀ c, data.comment = some c → updated.comment = some c) ∧
        updated.id = wp.id ∧ updated.userId = wp.userId ∧
        updated.createdAt = wp.createdAt ∧ updated.updatedAt = now) := by
  constructor
  · intro hnone
    unfold repository.UpdateWorkout
    rw [hnone]
  · intro wp hfind
    unfold repository.UpdateWorkout
    rw [hfind]
    refine ⟨_, rfl, rfl, ?_, ?_, ?_, ?_, rfl, rfl, rfl, rfl⟩
    · intro h; simp [h, coalesce]
    · intro d h; simp [h, coalesce]
    · intro h; simp [h, coalesceNull]
    · intro c h; simp [h, coalesceNull]

/-- C3 witness: updating plan 1 of c3db with only a status keeps the stored
comment and scheduled date. -/
theorem c3_update_workout_field_semantics_witness :
    ∃ updated,
      repository.UpdateWorkout c3db 9 ⟨1, .pending, none, none⟩ =
        (.ok updated,
          { c3db with workoutPlans :=
              c3db.workoutPlans.map (fun w => if w.id == 1 then updated else w) }) ∧
      updated.status = .pending ∧
      updated.scheduledDate = 100 ∧ updated.comment = some "old" := by
  obtain ⟨-, h⟩ := c3_update_workout_field_semantics c3db 9 ⟨1, .pending, none, none⟩
  obtain ⟨updated, heq, hst, hsd, -, hcm, -, -, -, -, -⟩ :=
    h ⟨1, 7, .completed, 100, some "old", 0, 0⟩ (by decide)
  exact ⟨updated, heq, hst, by rw [hsd rfl], by rw [hcm rfl]⟩

/-- C6: a successful delete of an existing workout plan removes, inside one
transaction, the plan row and every exercise-plan row referencing it while
keeping all other rows and the users table; when the plan id does not
exist the delete fails with not-found and the whole state, exercise plans
included, is unchanged (the transaction rolls back). -/
theorem c6_delete_cascades (db : DB) (id : Int) :
    ((∃ wp ∈ db.workoutPlans, wp.id = id) →
      ∃ db1,
        repository.DeleteWorkoutById db id = (.ok (), db1) ∧
        db1.workoutPlans = db.workoutPlans.filter (fun wp => wp.id != id) ∧
        db1.exercisePlans = db.exercisePlans.filter (fun ep => ep.workoutPlanId != id) ∧
        (∀ ep ∈ db1.exercisePlans, ep.workoutPlanId ≠ id) ∧
        (∀ ep ∈ db.exercisePlans, ep.workoutPlanId ≠ id → ep ∈ db1.exercisePlans) ∧
        db1.users = db.users) ∧
    ((∀ wp ∈ db.workoutPlans, wp.id ≠ id) →
      repository.DeleteWorkoutById db id = (.error .notFound, db)) := by
  constructor
  · rintro ⟨wp, hmem, hid⟩
    have hne : ((db.workoutPlans.filter (fun wp => wp.id == id)).length == 0) = false := by
      simp only [beq_eq_false_iff_ne, ne_eq, List.length_eq_zero]
      intro hnil
      have : wp ∈ db.workoutPlans.filter (fun wp => wp.id == id) := by
        simp [List.mem_filter, hmem, hid]
      simp [hnil] at this
    refine ⟨{ db with
        workoutPlans := db.workoutPlans.filter (fun wp => wp.id != id),
        exercisePlans := db.exercisePlans.filter (fun ep => ep.workoutPlanId != id) },
      ?_, rfl, rfl, ?_, ?_, rfl⟩
    · simp [repository.DeleteWorkoutById, hne]
    · intro ep hep
      have := List.of_mem_filter hep
      simpa using this
    · intro ep hep hne2
      exact List.mem_filter.mpr ⟨hep, by simpa using hne2⟩
  · intro hall
    have hz : ((db.workoutPlans.filter (fun wp => wp.id == id)).length == 0) = true := by
      simp only [beq_iff_eq, List.length_eq_zero, List.filter_eq_nil_iff]
      intro wp hmem
      simpa using hall wp hmem
    simp [repository.DeleteWorkoutById, hz]

/-- C6 witness: deleting plan 1 of c6db removes the plan and both of its
exercise plans while keeping the exercise plan of plan 2. -/
theorem c6_delete_cascades_witness :
    ∃ db1,
      repository.DeleteWorkoutById c6db 1 = (.ok (), db1) ∧
      db1.workoutPlans = c6db.workoutPlans.filter (fun wp => wp.id != 1) ∧
      db1.exercisePlans = c6db.exercisePlans.filter (fun ep => ep.workoutPlanId != 1) ∧
      (∀ ep ∈ db1.exercisePlans, ep.workoutPlanId ≠ 1) := by
  obtain ⟨h, -⟩ := c6_delete_cascades c6db 1
  obtain ⟨db1, heq, hwp, hep, hnone, -, -⟩ :=
    h ⟨⟨1, 7, .pending, 100, none, 0, 0⟩, by decide, rfl⟩
  exact ⟨db1, heq, hwp, hep, hnone⟩

/-- C5 counterexample: signing up with the already-registered email of c5db
does fail and does not touch the stored user, but the failure signal is
the INVALID_EMAIL validation error (mapped to HTTP 400), not the
already-exists signal (HTTP 409) the claim states; the handler test suite
expects exactly this INVALID_EMAIL response. -/
theorem c5_duplicate_email_counterexample :
    (userservice.SignupUser c5hash c5db 1 c5input).1 ≠ .error .alreadyExists ∧
    (userservice.SignupUser c5hash c5db 1 c5input).1 =
      .error (.validation .invalidEmail "email have already registered") ∧
    (userservice.SignupUser c5hash c5db 1 c5input).2 = c5db := by
  refine ⟨?_, ?_, ?_⟩ <;> decide

/-- C5 amended: for every signup request that passes input validation and
whose email is already registered, the operation fails with the
INVALID_EMAIL validation error (an HTTP 400 signal, not already-exists)
and the state, hence every existing user record, is left unchanged; no
silent overwrite occurs. -/
theorem c5_duplicate_email_rejected (hash : String → String) (db : DB) (now : Int)
    (input : userservice.UserSignup)
    (hv : input.Validate = .ok ())
    (hex : repository.ExistUser db input.email = true) :
    userservice.SignupUser hash db now input =
      (.error (.validation .invalidEmail "email have already registered"), db) := by
  unfold userservice.SignupUser
  rw [hv, hex]
  simp

/-- C5 witness: the concrete duplicate signup against c5db is rejected with
the INVALID_EMAIL validation error and leaves the database unchanged. -/
theorem c5_duplicate_email_rejected_witness :
    userservice.SignupUser c5hash c5db 1 c5input =
      (.error (.validation .invalidEmail "email have already registered"), c5db) :=
  c5_duplicate_email_rejected c5hash c5db 1 c5input (by decide) (by decide)

/-- noNewMissed is reflexive: an operation leaving the state alone
introduces no missed plan. -/
theorem noNewMissed_refl (db : DB) : noNewMissed db db :=
  fun wp1 h1 h2 => ⟨wp1, h1, rfl, h2⟩

/-- noNewMissed holds whenever the workout-plans table is unchanged. -/
theorem noNewMissed_of_eq (db db1 : DB)
    (h : db1.workoutPlans = db.workoutPlans) : noNewMissed db db1 :=
  fun wp1 h1 h2 => ⟨wp1, h ▸ h1, rfl, h2⟩

/-- createEPsLoop never touches the workout-plans table. -/
theorem createEPsLoop_workoutPlans (wid : Int)
    (l : List service.ExercisePlanCreate) (db : DB) (acc : List ExercisePlanRow) :
    (service.createEPsLoop wid l db acc).2.workoutPlans = db.workoutPlans := by
  induction l generalizing db acc with
  | nil => rfl
  | cons ep rest ih =>
    unfold service.createEPsLoop repository.CreateExercisePlan
    cases hf : db.workoutPlans.find? (fun wp => wp.id == wid) with
    | none => simp [hf]
    | some wp => simp [hf, ih]

/-- updateEPsLoop never touches the workout-plans table. -/
theorem updateEPsLoop_workoutPlans (l : List service.ExercisePlanUpdate)
    (db : DB) (acc : List ExercisePlanRow) :
    (service.updateEPsLoop l db acc).2.workoutPlans = db.workoutPlans := by
  induction l generalizing db acc with
  | nil => rfl
  | cons ep rest ih =>
    unfold service.updateEPsLoop
    cases hv : ep.Validate with
    | error e => simp [hv]
    | ok u =>
      cases u
      unfold repository.UpdateExercisePlan
      cases hf : db.exercisePlans.find? (fun e => e.id == ep.id) with
      | none => simp [hv, hf]
      | some e0 => simp [hv, hf, ih]

/-- UpdateWorkout writes exactly its carried status into every row with the
targeted id. -/
theorem updateWorkout_forces_status (db : DB) (now : Int)
    (data : repository.UpdateWP) :
    ∀ wp ∈ (repository.UpdateWorkout db now data).2.workoutPlans,
      wp.id = data.id → wp.status = data.status := by
  unfold repository.UpdateWorkout
  cases hf : db.workoutPlans.find? (fun wp => wp.id == data.id) with
  | none =>
    simp only [hf]
    intro wp hmem hid
    have := List.find?_eq_none.mp hf wp hmem
    simp [hid] at this
  | some wp0 =>
    simp only [hf]
    intro wp hmem hid
    rw [List.mem_map] at hmem
    obtain ⟨w, hw, heq⟩ := hmem
    by_cases hc : (w.id == data.id) = true
    · rw [if_pos hc] at heq
      rw [← heq]
      rfl
    · rw [if_neg hc] at heq
      subst heq
      simp [hid] at hc

/-- UpdateWorkout with a non-missed status introduces no missed plan. -/
theorem updateWorkout_noNewMissed (db : DB) (now : Int)
    (data : repository.UpdateWP) (hstat : data.status ≠ .missed) :
    noNewMissed db (repository.UpdateWorkout db now data).2 := by
  unfold noNewMissed repository.UpdateWorkout
  cases hf : db.workoutPlans.find? (fun wp => wp.id == data.id) with
  | none => simp only [hf]; exact noNewMissed_refl db
  | some wp0 =>
    simp only [hf]
    intro wp1 hmem hmiss
    rw [List.mem_map] at hmem
    obtain ⟨w, hw, heq⟩ := hmem
    by_cases hc : (w.id == data.id) = true
    · rw [if_pos hc] at heq
      exfalso
      apply hstat
      rw [← hmiss, ← heq]
      rfl
    · rw [if_neg hc] at heq
      subst heq
      exact ⟨w, hw, rfl, hmiss⟩

/-- CompleteWorkout forwards the state of the underlying UpdateWorkout. -/
theorem completeWorkout_snd (db : DB) (now : Int) (id : Int)
    (comment : Option String) :
    (service.CompleteWorkout db now id comment).2 =
      (repository.UpdateWorkout db now ⟨id, .completed, none, comment⟩).2 := by
  unfold service.CompleteWorkout
  rcases h : repository.UpdateWorkout db now ⟨id, .completed, none, comment⟩ with ⟨r, db1⟩
  cases r <;> simp

/-- ScheduleWorkout forwards the state of the underlying UpdateWorkout. -/
theorem scheduleWorkout_snd (db : DB) (now : Int) (id : Int)
    (sd : Option Int) :
    (service.ScheduleWorkout db now id sd).2 =
      (repository.UpdateWorkout db now ⟨id, .pending, sd, none⟩).2 := by
  unfold service.ScheduleWorkout
  rcases h : repository.UpdateWorkout db now ⟨id, .pending, sd, none⟩ with ⟨r, db1⟩
  cases r <;> simp

/-- CreateWorkout at the service layer appends only pending plans, hence
introduces no missed plan. -/
theorem createWorkout_noNewMissed (db : DB) (now : Int)
    (cdata : service.WorkoutPlanCreate) :
    noNewMissed db (service.CreateWorkout db now cdata).2 := by
  unfold service.CreateWorkout
  cases hval : cdata.Validate with
  | error e => simp only [hval]; exact noNewMissed_refl db
  | ok u =>
    cases u
    simp only [hval]
    cases hvl : service.validateEPList cdata.exercisePlans with
    | error e => simp only [hvl]; exact noNewMissed_refl db
    | ok u =>
      cases u
      simp only [hvl]
      cases hsd : cdata.scheduledDate with
      | none => simp only [hsd]; exact noNewMissed_refl db
      | some sd =>
        simp only [hsd, repository.CreateWorkout]
        split
        case _ e db1 heq =>
          have hwp : db1.workoutPlans =
              db.workoutPlans ++
                [⟨db.nextWorkoutPlanId, cdata.userId, .pending, sd,
                  if (none == some "") = true then none else none, now, now⟩] := by
            have := createEPsLoop_workoutPlans db.nextWorkoutPlanId
              cdata.exercisePlans
              { db with
                  workoutPlans := db.workoutPlans ++
                    [⟨db.nextWorkoutPlanId, cdata.userId, .pending, sd,
                      if (none == some "") = true then none else none, now, now⟩],
                  nextWorkoutPlanId := db.nextWorkoutPlanId + 1 } []
            rw [heq] at this
            exact this
          intro wp1 hmem hmiss
          rw [hwp] at hmem
          rcases List.mem_append.mp hmem with h | h
          · exact ⟨wp1, h, rfl, hmiss⟩
          · exfalso
            rw [List.mem_singleton] at h
            rw [h] at hmiss
            simp at hmiss
        case _ rows db1 heq =>
          have hwp : db1.workoutPlans =
              db.workoutPlans ++
                [⟨db.nextWorkoutPlanId, cdata.userId, .pending, sd,
                  if (none == some "") = true then none else none, now, now⟩] := by
            have := createEPsLoop_workoutPlans db.nextWorkoutPlanId
              cdata.exercisePlans
              { db with
                  workoutPlans := db.workoutPlans ++
                    [⟨db.nextWorkoutPlanId, cdata.userId, .pending, sd,
                      if (none == some "") = true then none else none, now, now⟩],
                  nextWorkoutPlanId := db.nextWorkoutPlanId + 1 } []
            rw [heq] at this
            exact this
          intro wp1 hmem hmiss
          rw [hwp] at hmem
          rcases List.mem_append.mp hmem with h | h
          · exact ⟨wp1, h, rfl, hmiss⟩
          · exfalso
            rw [List.mem_singleton] at h
            rw [h] at hmiss
            simp at hmiss

/-- UpdateExercisePlans never touches the workout-plans table, hence
introduces no missed plan. -/
theorem updateExercisePlans_noNewMissed (db : DB) (wid : Int)
    (epsU : List service.ExercisePlanUpdate) :
    noNewMissed db (service.UpdateExercisePlans db wid epsU).2 := by
  unfold service.UpdateExercisePlans
  cases hg : repository.GetWorkoutById db wid with
  | error e => simp only [hg]; exact noNewMissed_refl db
  | ok wp =>
    simp only [hg]
    split
    case _ e db1 heq =>
      apply noNewMissed_of_eq
      have := updateEPsLoop_workoutPlans epsU db []
      rw [heq] at this
      exact this
    case _ rows db1 heq =>
      apply noNewMissed_of_eq
      have := updateEPsLoop_workoutPlans epsU db []
      rw [heq] at this
      exact this

/-- DeleteWorkoutById only removes plans, hence introduces no missed
plan. -/
theorem deleteWorkout_noNewMissed (db : DB) (id : Int) :
    noNewMissed db (service.DeleteWorkoutById db id).2 := by
  unfold service.DeleteWorkoutById repository.DeleteWorkoutById
  by_cases hc : (((db.workoutPlans.filter (fun wp => wp.id == id)).length == 0) = true)
  · simp only [hc, if_true]; exact noNewMissed_refl db
  · rw [if_neg hc]
    intro wp1 hmem hmiss
    exact ⟨wp1, List.mem_of_mem_filter hmem, rfl, hmiss⟩

/-- SignupUser only touches the users table, hence introduces no missed
plan. -/
theorem signup_noNewMissed (hash : String → String) (db : DB) (now : Int)
    (input : userservice.UserSignup) :
    noNewMissed db (userservice.SignupUser hash db now input).2 := by
  unfold userservice.SignupUser
  cases hv : input.Validate with
  | error e => simp only [hv]; exact noNewMissed_refl db
  | ok u =>
    cases u
    simp only [hv]
    by_cases he : repository.ExistUser db input.email = true
    · simp only [he, if_true]; exact noNewMissed_refl db
    · rw [if_neg he]
      unfold repository.CreateUser
      by_cases ha : (db.users.any (fun u => u.email == input.email)) = true
      · simp only [ha, if_true]; exact noNewMissed_refl db
      · rw [if_neg ha]
        exact noNewMissed_of_eq db _ rfl

/-- C4: the complete operation leaves every row carrying the targeted id
with status completed and the schedule operation with status pending,
whatever the plan's previous status; and none of the state-changing
operations of the codebase (create, complete, schedule, update exercise
plans, delete, signup) ever introduces the missed status. -/
theorem c4_status_transitions (db : DB) (now : Int) (id id2 wid : Int)
    (comment : Option String) (sd : Option Int)
    (cdata : service.WorkoutPlanCreate) (epsU : List service.ExercisePlanUpdate)
    (hash : String → String) (input : userservice.UserSignup) :
    (∀ wp ∈ (service.CompleteWorkout db now id comment).2.workoutPlans,
      wp.id = id → wp.status = .completed) ∧
    (∀ wp ∈ (service.ScheduleWorkout db now id sd).2.workoutPlans,
      wp.id = id → wp.status = .pending) ∧
    noNewMissed db (service.CreateWorkout db now cdata).2 ∧
    noNewMissed db (service.CompleteWorkout db now id comment).2 ∧
    noNewMissed db (service.ScheduleWorkout db now id sd).2 ∧
    noNewMissed db (service.UpdateExercisePlans db wid epsU).2 ∧
    noNewMissed db (service.DeleteWorkoutById db id2).2 ∧
    noNewMissed db (userservice.SignupUser hash db now input).2 := by
  refine ⟨?_, ?_, createWorkout_noNewMissed db now cdata, ?_, ?_,
    updateExercisePlans_noNewMissed db wid epsU,
    deleteWorkout_noNewMissed db id2,
    signup_noNewMissed hash db now input⟩
  · rw [completeWorkout_snd]
    exact updateWorkout_forces_status db now ⟨id, .completed, none, comment⟩
  · rw [scheduleWorkout_snd]
    exact updateWorkout_forces_status db now ⟨id, .pending, sd, none⟩
  · rw [completeWorkout_snd]
    exact updateWorkout_noNewMissed db now ⟨id, .completed, none, comment⟩
      (fun h => WPStatus.noConfusion h)
  · rw [scheduleWorkout_snd]
    exact updateWorkout_noNewMissed db now ⟨id, .pending, sd, none⟩
      (fun h => WPStatus.noConfusion h)

/-- C4 witness: completing the missed plan of c4db forces its status to
completed. -/
theorem c4_status_transitions_witness :
    ∀ wp ∈ (service.CompleteWorkout c4db 5 1 none).2.workoutPlans,
      wp.id = 1 → wp.status = .completed :=
  (c4_status_transitions c4db 5 1 1 1 none none ⟨1, none, []⟩ [] (fun s => s)
    ⟨"A", "a@b.com", "password1"⟩).1

/-- doubleAuth, on a well-formed path carrying an authenticated caller,
reduces to the fetch-then-ownership check on the repository lookup. -/
theorem doubleAuth_eq (db : DB) (path : String) (pid : Int) (user : UserInfo)
    (hpath : (path == "") = false) (hparse : handler.atoi path = some pid) :
    handler.doubleAuth db path (some user) =
      match repository.GetWorkoutById db pid with
      | .error _ => .error .notFound
      | .ok wp => if wp.userId != user.id then .error .forbidden else .ok wp.id := by
  unfold handler.doubleAuth service.GetWorkoutById
  rw [if_neg (by simp [hpath]), hparse]
  cases hg : repository.GetWorkoutById db pid with
  | error e => simp only [hg]
  | ok wp => simp only [hg]; rfl

/-- C1: for every protected by-id handler (get, update exercise plans,
complete, schedule, delete) reached with a well-formed path id and an
authenticated caller, a plan that cannot be fetched makes the request fail
with the not-found signal (HTTP 404) leaving the state unchanged; a
fetched plan owned by a different user makes it fail with the forbidden
signal (HTTP 403), never not-found and never success, with the mutation
not performed; and only when both checks pass does doubleAuth hand the
plan id to the requested operation. -/
theorem c1_double_auth_gates (db : DB) (path : String) (pid : Int)
    (user : UserInfo) (now : Int)
    (bodyU : Option handler.UpdateEPsBody) (bodyC : Option handler.CompleteBody)
    (bodyS : Option handler.ScheduleBody)
    (hpath : (path == "") = false) (hparse : handler.atoi path = some pid) :
    (repository.GetWorkoutById db pid = .error .notFound →
      handler.GetWorkoutPlanById db path (some user) =
        (.err 404 "NOT_FOUND", db) ∧
      handler.UpdateExercisePlansInWorkoutPlan db path (some user) bodyU =
        (.err 404 "NOT_FOUND", db) ∧
      handler.CompleteWorkoutPlanById db now path (some user) bodyC =
        (.err 404 "NOT_FOUND", db) ∧
      handler.ScheduleWorkoutPlanById db now path (some user) bodyS =
        (.err 404 "NOT_FOUND", db) ∧
      handler.DeleteWoroutPlanById db path (some user) =
        (.err 404 "NOT_FOUND", db)) ∧
    (∀ wp, repository.GetWorkoutById db pid = .ok wp → wp.userId ≠ user.id →
      handler.GetWorkoutPlanById db path (some user) =
        (.err 403 "FORBIDDEN", db) ∧
      handler.UpdateExercisePlansInWorkoutPlan db path (some user) bodyU =
        (.err 403 "FORBIDDEN", db) ∧
      handler.CompleteWorkoutPlanById db now path (some user) bodyC =
        (.err 403 "FORBIDDEN", db) ∧
      handler.ScheduleWorkoutPlanById db now path (some user) bodyS =
        (.err 403 "FORBIDDEN", db) ∧
      handler.DeleteWoroutPlanById db path (some user) =
        (.err 403 "FORBIDDEN", db)) ∧
    (∀ wp, repository.GetWorkoutById db pid = .ok wp → wp.userId = user.id →
      handler.doubleAuth db path (some user) = .ok wp.id) := by
  refine ⟨?_, ?_, ?_⟩
  · intro h
    have hda : handler.doubleAuth db path (some user) = .error .notFound := by
      rw [doubleAuth_eq db path pid user hpath hparse, h]
    refine ⟨?_, ?_, ?_, ?_, ?_⟩
    · unfold handler.GetWorkoutPlanById; rw [hda]; rfl
    · unfold handler.UpdateExercisePlansInWorkoutPlan; rw [hda]; rfl
    · unfold handler.CompleteWorkoutPlanById; rw [hda]; rfl
    · unfold handler.ScheduleWorkoutPlanById; rw [hda]; rfl
    · unfold handler.DeleteWoroutPlanById; rw [hda]; rfl
  · intro wp h hne
    have hda : handler.doubleAuth db path (some user) = .error .forbidden := by
      rw [doubleAuth_eq db path pid user hpath hparse, h]
      simp [hne]
    refine ⟨?_, ?_, ?_, ?_, ?_⟩
    · unfold handler.GetWorkoutPlanById; rw [hda]; rfl
    · unfold handler.UpdateExercisePlansInWorkoutPlan; rw [hda]; rfl
    · unfold handler.CompleteWorkoutPlanById; rw [hda]; rfl
    · unfold handler.ScheduleWorkoutPlanById; rw [hda]; rfl
    · unfold handler.DeleteWoroutPlanById; rw [hda]; rfl
  · intro wp h heq
    rw [doubleAuth_eq db path pid user hpath hparse, h]
    simp [heq]

/-- C1 witness: user 9 deleting plan 1 of c1db, owned by user 7, gets the
forbidden signal and the state is unchanged. -/
theorem c1_double_auth_gates_witness :
    handler.DeleteWoroutPlanById c1db "1" (some c1user) =
      (.err 403 "FORBIDDEN", c1db) :=
  ((c1_double_auth_gates c1db "1" 1 c1user 0 none none none (by decide)
      (by decide)).2.1
    ⟨1, 7, .pending, 100, none, 0, 0⟩ (by decide) (by decide)).2.2.2.2

/-- C2: an update request that supplies only the id and sets of an exercise
plan does not leave the other fields unchanged while overwriting sets —
it crashes: toServiceUpdateEP dereferences the absent repetitions /
weights / weight-unit pointers, so the request panics before any write
(first two conjuncts), even though the repository layer underneath, which
its own test exercises with exactly this partial input, implements the
claimed COALESCE semantics (third conjunct). -/
theorem c2_partial_update_nil_deref :
    handler.toServiceUpdateEP ⟨some 1, some 5, none, none, none⟩ = none ∧
    handler.UpdateExercisePlansInWorkoutPlan c2db "1" (some c2user)
        (some ⟨some [⟨some 1, some 5, none, none, none⟩]⟩) =
      (.panicNilDeref, c2db) ∧
    (∃ row db1,
      repository.UpdateExercisePlan c2db ⟨1, some 5, none, none, none⟩ =
        (.ok row, db1) ∧
      row.sets = 5 ∧ row.repetitions = 10 ∧ row.weights = 50 ∧
      row.weightUnit = .kg) := by
  refine ⟨rfl, by decide, ⟨_, _, rfl, rfl, rfl, rfl, rfl⟩⟩

/-- C10 counterexample: a create-exercise-plan body without the sets field
is accepted by the JSON decoder yet makes toServiceCreateEP dereference a
nil pointer, and a signature-valid token without a payload id makes the
middleware context injection dereference a nil pointer; the conversions
are not total. -/
theorem c10_conversions_not_total :
    handler.toServiceCreateEP ⟨some 3, none, some 10, some 50, some .kg⟩ = none ∧
    middleware.JWTAuthMiddleware (some ⟨none, "Bob", "bob@example.com", "jt1", 99⟩)
        [] = .panicNilDeref :=
  ⟨rfl, rfl⟩

/-- C10 amended: the handler conversions and the middleware context
injection are total exactly on the inputs in which every dereferenced
optional field is present: with all fields present they never crash. -/
theorem c10_conversions_total_when_fields_present
    (ep : handler.APICreateExercisePlan) (up : handler.APIUpdateExercisePlan)
    (c : middleware.Claims) (bl : List String)
    (h1 : ep.exerciseId.isSome = true) (h2 : ep.sets.isSome = true)
    (h3 : ep.repetitions.isSome = true) (h4 : ep.weights.isSome = true)
    (h5 : ep.weightUnit.isSome = true)
    (h6 : up.id.isSome = true) (h7 : up.sets.isSome = true)
    (h8 : up.repetitions.isSome = true) (h9 : up.weights.isSome = true)
    (h10 : up.weightUnit.isSome = true)
    (h11 : c.payloadId.isSome = true) :
    (handler.toServiceCreateEP ep).isSome = true ∧
    (handler.toServiceUpdateEP up).isSome = true ∧
    middleware.JWTAuthMiddleware (some c) bl ≠ .panicNilDeref := by
  obtain ⟨a1, e1⟩ := Option.isSome_iff_exists.mp h1
  obtain ⟨a2, e2⟩ := Option.isSome_iff_exists.mp h2
  obtain ⟨a3, e3⟩ := Option.isSome_iff_exists.mp h3
  obtain ⟨a4, e4⟩ := Option.isSome_iff_exists.mp h4
  obtain ⟨a5, e5⟩ := Option.isSome_iff_exists.mp h5
  obtain ⟨b1, f1⟩ := Option.isSome_iff_exists.mp h6
  obtain ⟨b2, f2⟩ := Option.isSome_iff_exists.mp h7
  obtain ⟨b3, f3⟩ := Option.isSome_iff_exists.mp h8
  obtain ⟨b4, f4⟩ := Option.isSome_iff_exists.mp h9
  obtain ⟨b5, f5⟩ := Option.isSome_iff_exists.mp h10
  obtain ⟨p, hp⟩ := Option.isSome_iff_exists.mp h11
  refine ⟨?_, ?_, ?_⟩
  · simp [handler.toServiceCreateEP, e1, e2, e3, e4, e5]
  · simp [handler.toServiceUpdateEP, f1, f2, f3, f4, f5]
  · unfold middleware.JWTAuthMiddleware
    by_cases hj : (c.jti != "") = true
    · by_cases hb : c.jti ∈ bl
      · simp [hj, hb]
      · simp [hj, hb, hp]
    · have hj2 : (c.jti != "") = false := by simpa using hj
      simp [hj2]

/-- C10 witness: with every optional field present the conversions succeed
and the middleware does not crash. -/
theorem c10_conversions_total_witness :
    (handler.toServiceCreateEP ⟨some 3, some 4, some 10, some 50, some .kg⟩).isSome = true ∧
    (handler.toServiceUpdateEP ⟨some 1, some 4, some 10, some 50, some .kg⟩).isSome = true ∧
    middleware.JWTAuthMiddleware (some ⟨some 5, "Bob", "bob@example.com", "jt1", 99⟩)
        [] ≠ .panicNilDeref :=
  c10_conversions_total_when_fields_present
    ⟨some 3, some 4, some 10, some 50, some .kg⟩
    ⟨some 1, some 4, some 10, some 50, some .kg⟩
    ⟨some 5, "Bob", "bob@example.com", "jt1", 99⟩ []
    rfl rfl rfl rfl rfl rfl rfl rfl rfl rfl rfl
